import Mathlib

/-!
Shallow embedding of `src/image.py` (muses-pi): an e-paper photo frame that
fetches an image URL from a metadata API, downloads and caches the image,
renders it to an Inky panel, and refreshes either on a button press or at the
top of each hour.  Network, filesystem, clock and panel effects are modelled
as explicit inputs; Python exceptions are modelled with `Except` / an error
component, where a caught exception corresponds to a handled branch and an
uncaught one to an `Except.error` result.
-/

namespace MusesPi

/-- Python exception classes relevant to `image.py`.  `requestException`
covers `requests.RequestException` and its subclasses (including
`HTTPError` from `raise_for_status` and requests' `JSONDecodeError`);
`other` stands for any further `Exception`. -/
inductive PyExn where
  | requestException
  | attributeError
  | typeError
  | valueError
  | indexError
  | other
deriving DecidableEq, Repr

/-- JSON values as produced by `response.json()`.  `null` doubles as the
Python value `None`. -/
inductive JsonVal where
  | null
  | bool (b : Bool)
  | num (n : Int)
  | str (s : String)
  | arr (xs : List JsonVal)
  | obj (kvs : List (String × JsonVal))

/-- Python truthiness of a JSON value (`if image_url:`). -/
def truthy : JsonVal → Bool
  | .null => false
  | .bool b => b
  | .num n => n != 0
  | .str s => s != ""
  | .arr xs => !xs.isEmpty
  | .obj kvs => !kvs.isEmpty

/-- Raw lookup of a key in a JSON object's key-value list. -/
def pyLookup (kvs : List (String × JsonVal)) (k : String) : Option JsonVal :=
  (kvs.find? (fun p => p.1 == k)).map Prod.snd

/-- Python `v.get(k, dflt)`: on a `dict`, the stored value when the key is
present (even if that value is `None`), else the default; on any non-`dict`
value, an `AttributeError` (no `get` attribute). -/
def pyDictGetD (v : JsonVal) (k : String) (dflt : JsonVal) : Except PyExn JsonVal :=
  match v with
  | .obj kvs => .ok ((pyLookup kvs k).getD dflt)
  | _ => .error .attributeError

/-- Python `v.get(k)` (no default): as `pyDictGetD` with default `None`. -/
def pyDictGet (v : JsonVal) (k : String) : Except PyExn JsonVal :=
  pyDictGetD v k .null

/-- Outcome of the `requests.get(API_URL, timeout=10)` call in
`fetch_image_url`: either the request itself raises `RequestException`,
or a response arrives with a status code and a body (`none` = the body is
not valid JSON, so `response.json()` raises requests' `JSONDecodeError`,
a subclass of `RequestException`). -/
inductive HttpOutcome where
  | reqError
  | resp (status : Nat) (body : Option JsonVal)

/-- `fetch_image_url()` (src/image.py:47-64).  Returns the value of
`data.get("images", {}).get("small")` paired with the number of warnings
logged (1 exactly when the extracted URL is falsy: `logging.warning("No
image URL found in API response.")`).  `raise_for_status` raises `HTTPError`
for status codes 400-599; `except requests.RequestException` catches the
request error, the HTTP error and the JSON decode error and returns `None`,
but an `AttributeError` from `.get` on a non-dict propagates to the
caller. -/
def fetch_image_url (h : HttpOutcome) : Except PyExn (JsonVal × Nat) :=
  match h with
  | .reqError => .ok (.null, 0)
  | .resp status body =>
    if 400 ≤ status ∧ status < 600 then .ok (.null, 0)
    else
      match body with
      | none => .ok (.null, 0)
      | some data =>
        match pyDictGetD data "images" (.obj []) with
        | .error e => .error e
        | .ok images =>
          match pyDictGet images "small" with
          | .error e => .error e
          | .ok url => .ok (url, if truthy url then 0 else 1)

/-- A wall-clock instant as produced by `datetime.now()`, at the second
granularity used by the script (`strftime("%Y%m%d_%H%M%S")` and the
`now.minute` / `now.second` arithmetic in `auto_refresh`). -/
structure DateTime where
  year : Nat
  month : Nat
  day : Nat
  hour : Nat
  minute : Nat
  second : Nat
deriving DecidableEq, Repr

/-- Zero-pad to two digits, as `strftime` does for `%m %d %H %M %S`. -/
def pad2 (n : Nat) : String :=
  if n < 10 then "0" ++ toString n else toString n

/-- Zero-pad to four digits, as `strftime` does for `%Y`. -/
def pad4 (n : Nat) : String :=
  if n < 10 then "000" ++ toString n
  else if n < 100 then "00" ++ toString n
  else if n < 1000 then "0" ++ toString n
  else toString n

/-- `datetime.now().strftime("%Y%m%d_%H%M%S")` (src/image.py:77). -/
def fmtTimestamp (t : DateTime) : String :=
  pad4 t.year ++ pad2 t.month ++ pad2 t.day ++ "_" ++
    pad2 t.hour ++ pad2 t.minute ++ pad2 t.second

/-- The `images` cache directory: the `os.listdir` view, a listing of
(bare filename, modification time) pairs in enumeration order. -/
abbrev FileSys := List (String × Nat)

/-- `image.save(image_path)` at the file-system level: truncate an existing
entry of the same name (its mtime becomes the write time, its listing
position is kept), or add a fresh entry to the listing. -/
def writeFile (fs : FileSys) (name : String) (m : Nat) : FileSys :=
  if fs.any (fun p => p.1 == name) then
    fs.map (fun p => if p.1 == name then (name, m) else p)
  else fs ++ [(name, m)]

/-- Outcome of the image download in `download_image`: the
`requests.get(image_url, ...)` / `raise_for_status` step raises
`RequestException`, or the body fails to decode (`Image.open` or
`image.save` raises, caught by the final `except Exception`), or the
image is fetched, decoded and ready to save. -/
inductive DlOutcome where
  | reqError
  | badImage
  | ok
deriving DecidableEq, Repr

/-- `download_image(image_url)` (src/image.py:66-89).  Returns the saved
path (`os.path.join("images", f"{timestamp}.png")`) or `None`, together
with the updated cache directory.  Every failure is caught inside the
function (`except requests.RequestException` / `except Exception`), so it
never raises; `now` is the `datetime.now()` at the save and `nowM` the
resulting file modification time. -/
def download_image (url : JsonVal) (dl : DlOutcome) (now : DateTime) (nowM : Nat)
    (fs : FileSys) : Option String × FileSys :=
  if ¬ truthy url then (none, fs)
  else
    match dl with
    | .reqError => (none, fs)
    | .badImage => (none, fs)
    | .ok =>
      let name := fmtTimestamp now ++ ".png"
      (some ("images/" ++ name), writeFile fs name nowM)

/-- Insertion step of a stable descending-by-mtime sort: the new element
goes in front of the first entry whose mtime is not larger.  Elements
inserted earlier in `sortDesc` stand earlier in the original listing, so
placing them before equal-mtime entries reproduces the stability of
Python's `sorted`. -/
def insertDesc (p : String × Nat) : FileSys → FileSys
  | [] => [p]
  | q :: qs => if q.2 ≤ p.2 then p :: q :: qs else q :: insertDesc p qs

/-- `sorted(..., key=mtime, reverse=True)` (src/image.py:94-98): a stable
sort by modification time, largest first. -/
def sortDesc : FileSys → FileSys
  | [] => []
  | p :: ps => insertDesc p (sortDesc ps)

/-- Python `f.endswith(".png")`: the last four characters are `.png`. -/
def endsWithPng (s : String) : Bool :=
  match s.data.reverse with
  | 'g' :: 'n' :: 'p' :: '.' :: _ => true
  | _ => false

/-- `get_latest_saved_image()` (src/image.py:91-104): filter the listing to
`*.png` names, stable-sort by mtime descending, return
`os.path.join(IMAGE_DIR, files[0])` of the head, or `None` when the
filtered listing is empty. -/
def get_latest_saved_image (fs : FileSys) : Option String :=
  match sortDesc (fs.filter (fun p => endsWithPng p.1)) with
  | [] => none
  | f :: _ => some ("images/" ++ f.1)

/-- Calls made on the Inky panel by `update_display`: `inky.set_image` with
the `saturation` keyword, `inky.set_image` without it, `inky.set_border`,
and `inky.show`. -/
inductive PanelCall where
  | setImageWithSat
  | setImageNoSat
  | setBorder
  | showPanel
deriving DecidableEq, Repr

/-- Behaviour of the external collaborators of one `update_display` run:
whether `Image.open` + `resize` succeed, whether the panel's `set_image`
accepts the `saturation` keyword (raising `TypeError` when not), and
whether `set_image` / `set_border` / `show` succeed apart from that. -/
structure RenderEnv where
  openOk : Bool
  satSupported : Bool
  setImageOk : Bool
  setBorderOk : Bool
  showOk : Bool
deriving DecidableEq, Repr

/-- Body of `update_display` after the falsy-path check
(src/image.py:112-123): the panel calls attempted, in order, and the
exception (if any) that escapes to the outer `except Exception`.  The inner
`try` runs `set_image(..., saturation=...)` then `set_border`; its
`except TypeError` handler retries `set_image` without `saturation`; any
other exception propagates past it.  `inky.show()` runs after the inner
`try`/`except`. -/
def update_display_body (renv : RenderEnv) : List PanelCall × Option PyExn :=
  if ¬ renv.openOk then ([], some .other)
  else
    let inner : List PanelCall × Option PyExn :=
      if ¬ renv.satSupported then ([.setImageWithSat], some .typeError)
      else if ¬ renv.setImageOk then ([.setImageWithSat], some .other)
      else if ¬ renv.setBorderOk then ([.setImageWithSat, .setBorder], some .other)
      else ([.setImageWithSat, .setBorder], none)
    match inner with
    | (calls, some .typeError) =>
      if ¬ renv.setImageOk then (calls ++ [.setImageNoSat], some .other)
      else if ¬ renv.showOk then (calls ++ [.setImageNoSat, .showPanel], some .other)
      else (calls ++ [.setImageNoSat, .showPanel], none)
    | (calls, some e) => (calls, some e)
    | (calls, none) =>
      if ¬ renv.showOk then (calls ++ [.showPanel], some .other)
      else (calls ++ [.showPanel], none)

/-- `update_display(image_path, saturation=0.8)` (src/image.py:106-126).
Returns the panel calls made and the number of warnings logged.  A falsy
`image_path` logs `"No valid image found. Skipping update."` and returns
before touching the panel; otherwise the body runs and the outer
`except Exception` turns any escaped exception into an error log, so the
function's own result is always `Except.ok`. -/
def update_display (path : Option String) (renv : RenderEnv) :
    Except PyExn (List PanelCall × Nat) :=
  match path with
  | none => .ok ([], 1)
  | some p =>
    if p = "" then .ok ([], 1)
    else
      match update_display_body renv with
      | (calls, some _) => .ok (calls, 0)
      | (calls, none) => .ok (calls, 0)

/-- The all-good render environment. -/
def renvOk : RenderEnv := ⟨true, true, true, true, true⟩

/-- The external-world inputs of one `refresh_image()` run: the metadata
request's outcome, the image download's outcome, the wall clock at the
save, the resulting file mtime, and the render collaborators. -/
structure RefreshEnv where
  http : HttpOutcome
  dl : DlOutcome
  now : DateTime
  nowM : Nat
  renv : RenderEnv

/-- Observable result of one `refresh_image()` run: the cache directory
afterwards, the single argument `update_display` was invoked with, the
panel calls made, and the total number of warnings logged. -/
structure RefreshResult where
  fs' : FileSys
  displayArg : Option String
  calls : List PanelCall
  warnings : Nat
deriving Repr

/-- `refresh_image()` (src/image.py:128-138).  Calls `fetch_image_url`
(whose `AttributeError` would propagate, there being no `try` here), then
`download_image(image_url) if image_url else None`, falls back to
`get_latest_saved_image()` with a `"Falling back to last saved image."`
warning when no path was obtained, and always ends in one `update_display`
call. -/
def refresh_image (env : RefreshEnv) (fs : FileSys) : Except PyExn RefreshResult :=
  match fetch_image_url env.http with
  | .error e => .error e
  | .ok (url, w1) =>
    let (dlPath, fs1) :=
      if truthy url then download_image url env.dl env.now env.nowM fs else (none, fs)
    let (path, w2) :=
      match dlPath with
      | some p => (some p, 0)
      | none => (get_latest_saved_image fs1, 1)
    match update_display path env.renv with
    | .error e => .error e
    | .ok (calls, w3) => .ok ⟨fs1, path, calls, w1 + w2 + w3⟩

/-- GPIO pin numbers of buttons A-D (src/image.py:25). -/
def BUTTONS : List Nat := [5, 6, 16, 24]

/-- Button labels (src/image.py:26). -/
def LABELS : List String := ["A", "B", "C", "D"]

/-- Python `list.index(x)` (src/image.py:145): index of the first
occurrence, or `ValueError` when absent — modelled as `none`. -/
def pyIndex (l : List Nat) (x : Nat) : Option Nat :=
  match l with
  | [] => none
  | a :: rest => if a = x then some 0 else (pyIndex rest x).map (· + 1)

/-- Handling of one edge event in `button_listener` (src/image.py:144-152):
`OFFSETS.index(event.line_offset)` (uncaught `ValueError` when the offset
is not configured), then `BUTTONS[index]` and `LABELS[index]` (uncaught
`IndexError` when out of range), a log line, and one `refresh_image()`
call exactly when the label is `"B"`.  Returns the label and the number of
refresh calls made. -/
def button_handle_event (offsets : List Nat) (lineOffset : Nat) :
    Except PyExn (String × Nat) :=
  match pyIndex offsets lineOffset with
  | none => .error .valueError
  | some index =>
    match BUTTONS[index]?, LABELS[index]? with
    | some _, some label => .ok (label, if label == "B" then 1 else 0)
    | _, _ => .error .indexError

/-- One pass of the `button_listener` loop over a batch of edge events
(the `for event in request.read_edge_events()` body): events are handled
in order and an uncaught exception from any of them aborts the loop.
Returns the total number of `refresh_image()` calls made. -/
def button_listener_step (offsets : List Nat) (events : List Nat) : Except PyExn Nat :=
  match events with
  | [] => .ok 0
  | o :: rest =>
    match button_handle_event offsets o with
    | .error e => .error e
    | .ok (_, c) =>
      match button_listener_step offsets rest with
      | .error e => .error e
      | .ok n => .ok (c + n)

/-- Actions of one `auto_refresh` loop iteration, in order. -/
inductive SchedAction where
  | sleep (n : Int)
  | refresh
deriving DecidableEq, Repr

/-- One iteration of `auto_refresh()` (src/image.py:154-166): compute
`(60 - now.minute) * 60 - now.second`, `time.sleep` that many seconds,
then call `refresh_image()`. -/
def auto_refresh_step (now : DateTime) : List SchedAction :=
  [.sleep (((60 : Int) - now.minute) * 60 - now.second), .refresh]

/-- Spec-side comparison definition, following the spec's words: the
number of seconds remaining from a wall-clock instant until the next
top-of-hour boundary (minute=0, second=0), at the second granularity of
`datetime`. -/
def secondsUntilNextHourSpec (t : DateTime) : Int :=
  3600 - (60 * t.minute + t.second)

/-- A successful metadata response carrying an image URL. -/
def httpGood : HttpOutcome :=
  .resp 200 (some (.obj [("images", .obj [("small", .str "http://x")])]))

/-- A cache listing holding exactly the file the timestamp
`2025-01-01 12:00:00` would produce. -/
def fsClash : FileSys := [("20250101_120000.png", 100)]

/-- Environment of a refresh at `2025-01-01 12:00:00` with a reachable
metadata endpoint and a successful download. -/
def envClash : RefreshEnv := ⟨httpGood, .ok, ⟨2025, 1, 1, 12, 0, 0⟩, 200, renvOk⟩

/-- Environment of a refresh whose metadata request fails. -/
def envDown : RefreshEnv := ⟨.reqError, .reqError, ⟨2025, 1, 1, 12, 0, 0⟩, 0, renvOk⟩

/-- A cache listing with two pngs of distinct mtimes and one non-png. -/
def fsTwo : FileSys := [("b.png", 3), ("c.txt", 9), ("a.png", 5)]

/-! Helper lemmas about the stable descending sort and the cache. -/

theorem mem_insertDesc {x p : String × Nat} {l : FileSys} :
    x ∈ insertDesc p l ↔ x = p ∨ x ∈ l := by
  induction l with
  | nil => simp [insertDesc]
  | cons q qs ih =>
    by_cases h : q.2 ≤ p.2
    · simp [insertDesc, h]
    · simp [insertDesc, h, ih]
      tauto

theorem mem_sortDesc {x : String × Nat} {l : FileSys} :
    x ∈ sortDesc l ↔ x ∈ l := by
  induction l with
  | nil => simp [sortDesc]
  | cons p ps ih => simp [sortDesc, mem_insertDesc, ih]

theorem pairwise_insertDesc {p : String × Nat} {l : FileSys}
    (h : l.Pairwise (fun a b => b.2 ≤ a.2)) :
    (insertDesc p l).Pairwise (fun a b => b.2 ≤ a.2) := by
  induction l with
  | nil => simp [insertDesc]
  | cons q qs ih =>
    rcases List.pairwise_cons.mp h with ⟨hq, hqs⟩
    by_cases hle : q.2 ≤ p.2
    · simp only [insertDesc, if_pos hle]
      refine List.pairwise_cons.mpr ⟨?_, h⟩
      intro b hb
      rcases List.mem_cons.mp hb with hb | hb
      · subst hb; exact hle
      · exact le_trans (hq b hb) hle
    · simp only [insertDesc, if_neg hle]
      refine List.pairwise_cons.mpr ⟨?_, ih hqs⟩
      intro b hb
      rcases mem_insertDesc.mp hb with hb | hb
      · subst hb; omega
      · exact hq b hb

theorem pairwise_sortDesc {l : FileSys} :
    (sortDesc l).Pairwise (fun a b => b.2 ≤ a.2) := by
  induction l with
  | nil => simp [sortDesc]
  | cons p ps ih => exact pairwise_insertDesc ih

theorem sortDesc_eq_nil_iff {l : FileSys} : sortDesc l = [] ↔ l = [] := by
  induction l with
  | nil => simp [sortDesc]
  | cons p ps _ =>
    simp only [sortDesc]
    constructor
    · intro h
      have : p ∈ insertDesc p (sortDesc ps) := mem_insertDesc.mpr (Or.inl rfl)
      rw [h] at this
      exact absurd this (List.not_mem_nil p)
    · intro h; exact absurd h (by simp)

/-- The pngs of a directory listing, in listing order. -/
def pngFiles (fs : FileSys) : FileSys :=
  fs.filter (fun p => endsWithPng p.1)

theorem get_latest_eq (fs : FileSys) :
    get_latest_saved_image fs =
      match sortDesc (pngFiles fs) with
      | [] => none
      | f :: _ => some ("images/" ++ f.1) := rfl

/-- When exactly one png attains the maximal mtime,
`get_latest_saved_image` returns it, whatever the listing order. -/
theorem get_latest_of_unique_max {fs : FileSys} {u : String × Nat}
    (hu : u ∈ pngFiles fs)
    (hmax : ∀ p ∈ pngFiles fs, p.2 ≤ u.2)
    (huniq : ∀ p ∈ pngFiles fs, p.2 = u.2 → p = u) :
    get_latest_saved_image fs = some ("images/" ++ u.1) := by
  rw [get_latest_eq]
  have husort : u ∈ sortDesc (pngFiles fs) := mem_sortDesc.mpr hu
  match hs : sortDesc (pngFiles fs) with
  | [] => rw [hs] at husort; exact absurd husort (List.not_mem_nil u)
  | f :: rest =>
    have hf : f ∈ pngFiles fs := mem_sortDesc.mp (hs ▸ List.mem_cons_self f rest)
    have hpw := @pairwise_sortDesc (pngFiles fs)
    rw [hs] at hpw
    rcases List.pairwise_cons.mp hpw with ⟨hhead, _⟩
    rw [hs] at husort
    have hfu : f = u := by
      rcases List.mem_cons.mp husort with h | h
      · exact h.symm
      · have h1 : u.2 ≤ f.2 := hhead u h
        have h2 : f.2 ≤ u.2 := hmax f hf
        exact huniq f hf (le_antisymm h2 h1)
    rw [hfu]

/-- A returned latest image is a png of the listing with maximal mtime. -/
theorem get_latest_is_max {fs : FileSys} {r : String}
    (h : get_latest_saved_image fs = some r) :
    ∃ p ∈ pngFiles fs, r = "images/" ++ p.1 ∧ ∀ q ∈ pngFiles fs, q.2 ≤ p.2 := by
  rw [get_latest_eq] at h
  match hs : sortDesc (pngFiles fs) with
  | [] => rw [hs] at h; exact absurd h (by simp)
  | f :: rest =>
    rw [hs] at h
    simp only [Option.some.injEq] at h
    refine ⟨f, mem_sortDesc.mp (hs ▸ List.mem_cons_self f rest), h.symm, ?_⟩
    intro q hq
    have hqsort : q ∈ sortDesc (pngFiles fs) := mem_sortDesc.mpr hq
    rw [hs] at hqsort
    have hpw := @pairwise_sortDesc (pngFiles fs)
    rw [hs] at hpw
    rcases List.pairwise_cons.mp hpw with ⟨hhead, _⟩
    rcases List.mem_cons.mp hqsort with hc | hc
    · exact hc ▸ le_refl _
    · exact hhead q hc

/-- When no png is listed, `get_latest_saved_image` returns `None`. -/
theorem get_latest_of_no_png {fs : FileSys} (h : pngFiles fs = []) :
    get_latest_saved_image fs = none := by
  rw [get_latest_eq, h]
  rfl

/-- When some png is listed, `get_latest_saved_image` returns a path. -/
theorem get_latest_of_has_png {fs : FileSys} (h : pngFiles fs ≠ []) :
    ∃ r, get_latest_saved_image fs = some r := by
  rw [get_latest_eq]
  match hs : sortDesc (pngFiles fs) with
  | [] => exact absurd (sortDesc_eq_nil_iff.mp hs) h
  | f :: rest => exact ⟨"images/" ++ f.1, rfl⟩

/-- A write leaves the name listing intact, or appends the new name. -/
theorem writeFile_map_fst (fs : FileSys) (name : String) (m : Nat) :
    (writeFile fs name m).map Prod.fst = fs.map Prod.fst ∨
    (writeFile fs name m).map Prod.fst = fs.map Prod.fst ++ [name] := by
  unfold writeFile
  by_cases h : fs.any (fun p => p.1 == name)
  · left
    rw [if_pos h, List.map_map]
    apply List.map_congr_left
    intro p _
    by_cases hp : p.1 == name
    · have : p.1 = name := by simpa using hp
      simp [Function.comp, hp, this]
    · simp [Function.comp, hp]
  · right
    rw [if_neg h]
    simp

/-- A fresh name is appended to the listing by a write. -/
theorem writeFile_map_fst_of_not_mem {fs : FileSys} {name : String} {m : Nat}
    (h : name ∉ fs.map Prod.fst) :
    (writeFile fs name m).map Prod.fst = fs.map Prod.fst ++ [name] := by
  unfold writeFile
  have hany : fs.any (fun p => p.1 == name) = false := by
    rw [List.any_eq_false]
    intro p hp
    have hne : p.1 ≠ name := fun e => h (List.mem_map.mpr ⟨p, hp, e⟩)
    simpa using hne
  rw [if_neg (by simp [hany])]
  simp

/-- No name ever disappears from the listing on a write. -/
theorem writeFile_names_mono {fs : FileSys} {name : String} {m : Nat} {n : String}
    (h : n ∈ fs.map Prod.fst) : n ∈ (writeFile fs name m).map Prod.fst := by
  rcases writeFile_map_fst fs name m with he | he
  · rw [he]; exact h
  · rw [he]; exact List.mem_append_left _ h

/-- No name ever disappears from the listing on a download. -/
theorem download_names_mono {url : JsonVal} {dl : DlOutcome} {now : DateTime}
    {nowM : Nat} {fs : FileSys} {n : String} (h : n ∈ fs.map Prod.fst) :
    n ∈ ((download_image url dl now nowM fs).2.map Prod.fst) := by
  by_cases hu : truthy url = true
  · cases dl with
    | reqError => simpa [download_image, hu] using h
    | badImage => simpa [download_image, hu] using h
    | ok => simpa [download_image, hu] using
        @writeFile_names_mono fs (fmtTimestamp now ++ ".png") nowM n h
  · simpa [download_image, hu] using h

/-- `update_display` never lets an exception escape: every call returns an
`ok` pair of panel calls and warning count. -/
theorem update_display_ok (path : Option String) (renv : RenderEnv) :
    ∃ cw, update_display path renv = .ok cw := by
  cases path with
  | none => exact ⟨([], 1), rfl⟩
  | some p =>
    by_cases hp : p = ""
    · exact ⟨([], 1), by simp [update_display, hp]⟩
    · rcases hb : update_display_body renv with ⟨calls, err⟩
      cases err with
      | none => exact ⟨(calls, 0), by simp [update_display, hp, hb]⟩
      | some e => exact ⟨(calls, 0), by simp [update_display, hp, hb]⟩

/-- Evaluation of Python's `list.index` on a four-element list. -/
theorem pyIndex_four (a b c d x : Nat) :
    pyIndex [a, b, c, d] x =
      if a = x then some 0
      else if b = x then some 1
      else if c = x then some 2
      else if d = x then some 3
      else none := by
  by_cases h1 : a = x <;> by_cases h2 : b = x <;> by_cases h3 : c = x <;>
    by_cases h4 : d = x <;>
    simp [pyIndex, h1, h2, h3, h4]

/-- `list.index` raises `ValueError` exactly on unlisted values. -/
theorem pyIndex_eq_none_of_not_mem {l : List Nat} {x : Nat} (h : x ∉ l) :
    pyIndex l x = none := by
  induction l with
  | nil => rfl
  | cons a rest ih =>
    have hax : ¬ a = x := fun e => h (e ▸ List.mem_cons_self a rest)
    have hrest : x ∉ rest := fun hm => h (List.mem_cons_of_mem a hm)
    simp [pyIndex, hax, ih hrest]

/-- A refresh whose metadata fetch yields a truthy URL and whose download
succeeds: the timestamped file is written and rendered. -/
theorem refresh_image_download_ok {env : RefreshEnv} {url : JsonVal} {w1 : Nat}
    (fs : FileSys) (hf : fetch_image_url env.http = .ok (url, w1))
    (hu : truthy url = true) (hdl : env.dl = .ok) :
    ∃ calls w3,
      update_display (some ("images/" ++ (fmtTimestamp env.now ++ ".png"))) env.renv =
        .ok (calls, w3) ∧
      refresh_image env fs =
        .ok ⟨writeFile fs (fmtTimestamp env.now ++ ".png") env.nowM,
          some ("images/" ++ (fmtTimestamp env.now ++ ".png")), calls, w1 + 0 + w3⟩ := by
  obtain ⟨⟨calls, w3⟩, hud⟩ :=
    update_display_ok (some ("images/" ++ (fmtTimestamp env.now ++ ".png"))) env.renv
  refine ⟨calls, w3, hud, ?_⟩
  unfold refresh_image
  rw [hf]
  simp only [hu, if_true, download_image, Bool.not_true, hdl]
  rw [if_neg (by simp)]
  rw [hud]

/-- A refresh whose metadata fetch yields a falsy URL: no download happens
and the latest cached image is rendered. -/
theorem refresh_image_fallback {env : RefreshEnv} {url : JsonVal} {w1 : Nat}
    (fs : FileSys) (hf : fetch_image_url env.http = .ok (url, w1))
    (hu : truthy url = false) :
    ∃ calls w3,
      update_display (get_latest_saved_image fs) env.renv = .ok (calls, w3) ∧
      refresh_image env fs =
        .ok ⟨fs, get_latest_saved_image fs, calls, w1 + 1 + w3⟩ := by
  obtain ⟨⟨calls, w3⟩, hud⟩ := update_display_ok (get_latest_saved_image fs) env.renv
  refine ⟨calls, w3, hud, ?_⟩
  unfold refresh_image
  rw [hf]
  simp [hu, hud]

/-- Claim C4, counterexample: a 200 response whose JSON body maps
`"images"` to a non-object (here `null`) makes `fetch_image_url` raise an
uncaught `AttributeError` instead of returning absent-value, refuting the
claim that it returns absent-value and raises no exception for every body
lacking `images.small`. -/
theorem C4_counterexample :
    fetch_image_url (.resp 200 (some (.obj [("images", .null)]))) =
      .error .attributeError := rfl

/-- Claim C4, amended: `fetch_image_url` returns absent-value and raises
nothing when the request errors, when the status is in 400-599 (the codes
`raise_for_status` rejects), when the body is malformed JSON, and when the
`images` key is absent or maps to an object lacking `small`; but when
`images` maps to a non-object value, an `AttributeError` propagates to the
caller. -/
theorem C4_fetch_absent_on_failures :
    (fetch_image_url .reqError = .ok (.null, 0)) ∧
    (∀ s b, 400 ≤ s → s < 600 → fetch_image_url (.resp s b) = .ok (.null, 0)) ∧
    (∀ s, fetch_image_url (.resp s none) = .ok (.null, 0)) ∧
    (∀ s kvs, pyLookup kvs "images" = none →
      ∃ w, fetch_image_url (.resp s (some (.obj kvs))) = .ok (.null, w)) ∧
    (∀ s kvs kvs2, pyLookup kvs "images" = some (.obj kvs2) →
      pyLookup kvs2 "small" = none →
      ∃ w, fetch_image_url (.resp s (some (.obj kvs))) = .ok (.null, w)) ∧
    (∀ s kvs v, ¬(400 ≤ s ∧ s < 600) → pyLookup kvs "images" = some v →
      (∀ kvs2, v ≠ .obj kvs2) →
      fetch_image_url (.resp s (some (.obj kvs))) = .error .attributeError) := by
  refine ⟨rfl, ?_, ?_, ?_, ?_, ?_⟩
  · intro s b h1 h2
    simp [fetch_image_url, h1, h2]
  · intro s
    by_cases h : 400 ≤ s ∧ s < 600 <;> simp [fetch_image_url, h]
  · intro s kvs h
    by_cases hs : 400 ≤ s ∧ s < 600
    · exact ⟨0, by simp [fetch_image_url, hs]⟩
    · have e1 : pyDictGetD (.obj kvs) "images" (.obj []) = .ok (.obj []) := by
        simp [pyDictGetD, h]
      have e2 : pyDictGet (.obj []) "small" = .ok .null := rfl
      have e3 : truthy .null = false := rfl
      exact ⟨1, by simp only [fetch_image_url, e1, e2, e3, if_neg hs, Bool.false_eq_true,
        if_false]⟩
  · intro s kvs kvs2 h1 h2
    by_cases hs : 400 ≤ s ∧ s < 600
    · exact ⟨0, by simp [fetch_image_url, hs]⟩
    · have e1 : pyDictGetD (.obj kvs) "images" (.obj []) = .ok (.obj kvs2) := by
        simp [pyDictGetD, h1]
      have e2 : pyDictGet (.obj kvs2) "small" = .ok .null := by
        simp [pyDictGet, pyDictGetD, h2]
      have e3 : truthy .null = false := rfl
      exact ⟨1, by simp only [fetch_image_url, e1, e2, e3, if_neg hs, Bool.false_eq_true,
        if_false]⟩
  · intro s kvs v hs h1 h2
    have hv : pyDictGet v "small" = .error .attributeError := by
      cases v with
      | obj kvs2 => exact absurd rfl (h2 kvs2)
      | null => rfl
      | bool b => rfl
      | num n => rfl
      | str s => rfl
      | arr xs => rfl
    have e1 : pyDictGetD (.obj kvs) "images" (.obj []) = .ok v := by
      simp [pyDictGetD, h1]
    simp [fetch_image_url, hs, e1, hv]

/-- Claim C4, witness: concrete runs of the amended theorem — a failed
request, a 404 response, a malformed body and a body whose `images` object
lacks `small` all yield absent-value without raising. -/
theorem C4_witness :
    (fetch_image_url .reqError = .ok (.null, 0)) ∧
    (fetch_image_url (.resp 404 none) = .ok (.null, 0)) ∧
    (∃ w, fetch_image_url (.resp 200 (some (.obj [("images", .obj [])]))) =
      .ok (.null, w)) :=
  ⟨C4_fetch_absent_on_failures.1,
    C4_fetch_absent_on_failures.2.1 404 none (by decide) (by decide),
    C4_fetch_absent_on_failures.2.2.2.2.1 200 [("images", .obj [])] [] rfl rfl⟩

/-- Claim C5, counterexample: on a panel that rejects the `saturation`
keyword, `update_display` retries `set_image` without it and commits the
frame, but never calls `set_border` — the `inky.set_border(inky.BLACK)`
line sits inside the `try` block after the call that raised, so the
claimed border-setting does not happen on the fallback path. -/
theorem C5_counterexample :
    update_display (some "images/a.png") ⟨true, false, true, true, true⟩ =
      .ok ([.setImageWithSat, .setImageNoSat, .showPanel], 0) ∧
    PanelCall.setBorder ∉
      [PanelCall.setImageWithSat, PanelCall.setImageNoSat, PanelCall.showPanel] :=
  ⟨rfl, by decide⟩

/-- Claim C5, amended: no `update_display` failure ever propagates (every
call returns `ok`), and on a panel whose image-set rejects the saturation
keyword with `TypeError` the call is retried exactly once without that
parameter and the frame is committed — but the border color is not set on
that path. -/
theorem C5_render_retry_and_catch :
    (∀ path renv, ∃ cw, update_display path renv = .ok cw) ∧
    (∀ (p : String) (renv : RenderEnv), p ≠ "" → renv.openOk = true →
      renv.satSupported = false → renv.setImageOk = true → renv.showOk = true →
      update_display (some p) renv =
        .ok ([.setImageWithSat, .setImageNoSat, .showPanel], 0)) := by
  refine ⟨update_display_ok, ?_⟩
  intro p renv hp h1 h2 h3 h4
  rcases renv with ⟨o, sat, si, sb, sh⟩
  simp only at h1 h2 h3 h4
  subst h1 h2 h3 h4
  simp [update_display, update_display_body, hp]

/-- Claim C5, witness: the amended theorem applied to a concrete path and a
concrete saturation-rejecting panel. -/
theorem C5_witness :
    update_display (some "images/b.png") ⟨true, false, true, false, true⟩ =
      .ok ([.setImageWithSat, .setImageNoSat, .showPanel], 0) :=
  C5_render_retry_and_catch.2 "images/b.png" ⟨true, false, true, false, true⟩
    (by decide) rfl rfl rfl rfl

/-- Claim C6, counterexample: two listings of the same two png files, both
with modification time 5, yield different results depending only on the
enumeration order — Python's stable sort breaks the mtime tie by listing
position, so `latest()` is not independent of enumeration order. -/
theorem C6_counterexample :
    get_latest_saved_image [("a.png", 5), ("b.png", 5)] = some "images/a.png" ∧
    get_latest_saved_image [("b.png", 5), ("a.png", 5)] = some "images/b.png" :=
  ⟨rfl, rfl⟩

/-- Claim C6, amended: on a listing without pngs `latest()` returns
absent-value; any returned file is a listed png of maximal modification
time; and when exactly one png attains the maximal mtime the result is that
file, independent of the enumeration order (ties are broken by listing
order). -/
theorem C6_latest_max_mtime :
    (∀ fs, pngFiles fs = [] → get_latest_saved_image fs = none) ∧
    (∀ fs r, get_latest_saved_image fs = some r →
      ∃ p ∈ pngFiles fs, r = "images/" ++ p.1 ∧ ∀ q ∈ pngFiles fs, q.2 ≤ p.2) ∧
    (∀ fs (u : String × Nat), u ∈ pngFiles fs →
      (∀ p ∈ pngFiles fs, p.2 ≤ u.2) → (∀ p ∈ pngFiles fs, p.2 = u.2 → p = u) →
      get_latest_saved_image fs = some ("images/" ++ u.1)) :=
  ⟨fun _ h => get_latest_of_no_png h,
    fun _ _ h => get_latest_is_max h,
    fun _ _ hu hmax huniq => get_latest_of_unique_max hu hmax huniq⟩

/-- Claim C6, witness: the amended theorem evaluated on an empty listing
and on a three-file listing whose unique maximal-mtime png is `a.png`. -/
theorem C6_witness :
    get_latest_saved_image [] = none ∧
    get_latest_saved_image fsTwo = some ("images/" ++ "a.png") :=
  ⟨C6_latest_max_mtime.1 [] rfl,
    C6_latest_max_mtime.2.2 fsTwo ("a.png", 5) (by decide) (by decide) (by decide)⟩

/-- Claim C7: the sleep the scheduler computes,
`(60 - now.minute) * 60 - now.second`, equals the number of seconds
remaining until the next top-of-hour boundary, and the iteration sleeps
that duration and then invokes the refresh. -/
theorem C7_sleep_until_next_hour :
    ∀ t : DateTime, t.minute < 60 → t.second < 60 →
      auto_refresh_step t = [.sleep (secondsUntilNextHourSpec t), .refresh] := by
  intro t _ _
  unfold auto_refresh_step secondsUntilNextHourSpec
  have h : ((60 : Int) - t.minute) * 60 - t.second =
      3600 - (60 * t.minute + t.second) := by ring
  rw [h]

/-- Claim C7, witness: at 12:34:56 the scheduler sleeps 1504 seconds —
exactly the distance to 13:00:00 — then refreshes. -/
theorem C7_witness :
    auto_refresh_step ⟨2025, 1, 1, 12, 34, 56⟩ =
      [.sleep (secondsUntilNextHourSpec ⟨2025, 1, 1, 12, 34, 56⟩), .refresh] ∧
    secondsUntilNextHourSpec ⟨2025, 1, 1, 12, 34, 56⟩ = 1504 :=
  ⟨C7_sleep_until_next_hour ⟨2025, 1, 1, 12, 34, 56⟩ (by decide) (by decide),
    by decide⟩

/-- Claim C1, counterexample: a refresh at 2025-01-01 12:00:00 with a
reachable metadata endpoint and a successful download, against a cache that
already holds `20250101_120000.png`: the download overwrites that record
(its mtime becomes 200) and the name listing is unchanged, so zero new
files are written even though fetch and download both succeeded. -/
theorem C1_counterexample :
    refresh_image envClash fsClash =
      .ok ⟨[("20250101_120000.png", 200)], some "images/20250101_120000.png",
        [.setImageWithSat, .setBorder, .showPanel], 0⟩ ∧
    fsClash.map Prod.fst = ["20250101_120000.png"] :=
  ⟨rfl, rfl⟩

/-- Claim C1, amended: when the metadata fetch returns a truthy URL and the
download succeeds, exactly one file is written, at the timestamp-derived
path, and the display render is invoked exactly once with that path; the
file is new — the name listing grows by exactly that name — whenever no
cache file already bears the same second-resolution timestamp. -/
theorem C1_refresh_download_writes_and_renders :
    ∀ (env : RefreshEnv) (fs : FileSys) (url : JsonVal) (w : Nat),
      fetch_image_url env.http = .ok (url, w) → truthy url = true → env.dl = .ok →
      ∃ r, refresh_image env fs = .ok r ∧
        r.fs' = writeFile fs (fmtTimestamp env.now ++ ".png") env.nowM ∧
        r.displayArg = some ("images/" ++ (fmtTimestamp env.now ++ ".png")) ∧
        ((fmtTimestamp env.now ++ ".png") ∉ fs.map Prod.fst →
          r.fs'.map Prod.fst = fs.map Prod.fst ++ [fmtTimestamp env.now ++ ".png"]) := by
  intro env fs url w hf hu hdl
  obtain ⟨calls, w3, _, hr⟩ := refresh_image_download_ok fs hf hu hdl
  exact ⟨_, hr, rfl, rfl, fun hnm => writeFile_map_fst_of_not_mem hnm⟩

/-- Claim C1, witness: the amended theorem on an empty cache — the
timestamped file is the one new entry and is the rendered path. -/
theorem C1_witness :
    ∃ r, refresh_image envClash [] = .ok r ∧
      r.fs' = writeFile [] (fmtTimestamp envClash.now ++ ".png") envClash.nowM ∧
      r.displayArg = some ("images/" ++ (fmtTimestamp envClash.now ++ ".png")) ∧
      ((fmtTimestamp envClash.now ++ ".png") ∉ ([] : FileSys).map Prod.fst →
        r.fs'.map Prod.fst =
          ([] : FileSys).map Prod.fst ++ [fmtTimestamp envClash.now ++ ".png"]) :=
  C1_refresh_download_writes_and_renders envClash [] (.str "http://x") 0 rfl rfl rfl

/-- Claim C2: when the metadata fetch yields a falsy URL and the cache
holds at least one png, no cache file is created or changed and the render
is invoked exactly once with the most recent cached file — stated both for
a unique maximal-mtime png (the render argument is exactly that file) and
for an arbitrary non-empty png listing (the render argument is a png of
maximal mtime). -/
theorem C2_refresh_fallback_renders_latest :
    ∀ (env : RefreshEnv) (fs : FileSys) (url : JsonVal) (w : Nat),
      fetch_image_url env.http = .ok (url, w) → truthy url = false →
      (∀ u : String × Nat, u ∈ pngFiles fs →
        (∀ p ∈ pngFiles fs, p.2 ≤ u.2) → (∀ p ∈ pngFiles fs, p.2 = u.2 → p = u) →
        ∃ r, refresh_image env fs = .ok r ∧ r.fs' = fs ∧
          r.displayArg = some ("images/" ++ u.1)) ∧
      (pngFiles fs ≠ [] →
        ∃ r, refresh_image env fs = .ok r ∧ r.fs' = fs ∧
          ∃ p ∈ pngFiles fs, r.displayArg = some ("images/" ++ p.1) ∧
            ∀ q ∈ pngFiles fs, q.2 ≤ p.2) := by
  intro env fs url w hf hu
  obtain ⟨calls, w3, _, hr⟩ := refresh_image_fallback fs hf hu
  constructor
  · intro u hu1 hmax huniq
    refine ⟨_, hr, rfl, ?_⟩
    show get_latest_saved_image fs = some ("images/" ++ u.1)
    exact get_latest_of_unique_max hu1 hmax huniq
  · intro hne
    obtain ⟨rr, hrr⟩ := get_latest_of_has_png hne
    obtain ⟨p, hp, hrp, hmax⟩ := get_latest_is_max hrr
    refine ⟨_, hr, rfl, p, hp, ?_, hmax⟩
    show get_latest_saved_image fs = some ("images/" ++ p.1)
    rw [hrr, hrp]

/-- Claim C2, witness: a refresh with a failed metadata request over a
cache whose unique most-recent png is `a.png` renders exactly that file and
leaves the cache untouched. -/
theorem C2_witness :
    ∃ r, refresh_image envDown fsTwo = .ok r ∧ r.fs' = fsTwo ∧
      r.displayArg = some ("images/" ++ "a.png") :=
  (C2_refresh_fallback_renders_latest envDown fsTwo .null 0 rfl rfl).1 ("a.png", 5)
    (by decide) (by decide) (by decide)

/-- Claim C3, counterexample: a refresh with a failed metadata request and
an empty cache logs TWO warnings — `"Falling back to last saved image."`
in `refresh_image` and `"No valid image found. Skipping update."` in
`update_display` — not exactly one as claimed.  No panel call is made and
the run returns normally. -/
theorem C3_counterexample :
    refresh_image envDown [] = .ok ⟨[], none, [], 2⟩ := rfl

/-- Claim C3, amended: when the metadata fetch yields a falsy URL and the
cache holds no png, no render call reaches the panel, `refresh_image`
returns normally, and the warnings logged number two more than those of the
fetch itself (the fallback warning and the skip-update warning; the fetch
adds a third exactly when a success response lacked the URL field). -/
theorem C3_refresh_no_source_warns :
    ∀ (env : RefreshEnv) (fs : FileSys) (url : JsonVal) (w : Nat),
      fetch_image_url env.http = .ok (url, w) → truthy url = false →
      pngFiles fs = [] →
      ∃ r, refresh_image env fs = .ok r ∧ r.displayArg = none ∧
        r.calls = [] ∧ r.warnings = w + 2 := by
  intro env fs url w hf hu hpng
  obtain ⟨calls, w3, hud, hr⟩ := refresh_image_fallback fs hf hu
  have hlat : get_latest_saved_image fs = none := get_latest_of_no_png hpng
  rw [hlat] at hud hr
  have h0 : update_display none env.renv = Except.ok ([], 1) := rfl
  have h1 := h0.symm.trans hud
  obtain ⟨hc, hw⟩ : ([] : List PanelCall) = calls ∧ 1 = w3 := by simpa using h1
  subst hc hw
  exact ⟨_, hr, rfl, rfl, rfl⟩

/-- Claim C3, witness: the amended theorem on the failed-request
environment and empty cache — two warnings, no panel call. -/
theorem C3_witness :
    ∃ r, refresh_image envDown [] = .ok r ∧ r.displayArg = none ∧
      r.calls = [] ∧ r.warnings = 0 + 2 :=
  C3_refresh_no_source_warns envDown [] .null 0 rfl rfl rfl

/-- A refresh whose metadata fetch yields a truthy URL but whose download
fails: the cache is untouched and the fallback path runs. -/
theorem refresh_image_download_fail {env : RefreshEnv} {url : JsonVal} {w1 : Nat}
    (fs : FileSys) (hf : fetch_image_url env.http = .ok (url, w1))
    (hu : truthy url = true) (hdl : env.dl ≠ .ok) :
    ∃ calls w3,
      refresh_image env fs =
        .ok ⟨fs, get_latest_saved_image fs, calls, w1 + 1 + w3⟩ := by
  obtain ⟨⟨calls, w3⟩, hud⟩ := update_display_ok (get_latest_saved_image fs) env.renv
  refine ⟨calls, w3, ?_⟩
  unfold refresh_image
  rw [hf]
  cases hd : env.dl with
  | ok => exact absurd hd hdl
  | reqError => simp [hu, download_image, hd, hud]
  | badImage => simp [hu, download_image, hd, hud]

/-- Claim C8: on the four configured (distinct) line offsets, an edge event
on the offset at index 2 resolves to label `"C"` and triggers no refresh,
while an edge event on the offset at index 1 — the line mapped to `"B"` —
triggers exactly one refresh. -/
theorem C8_button_labels :
    ∀ offsets : List Nat, offsets.Nodup → offsets.length = 4 →
      (∀ o, offsets[2]? = some o → button_handle_event offsets o = .ok ("C", 0)) ∧
      (∀ o, offsets[1]? = some o → button_handle_event offsets o = .ok ("B", 1)) := by
  intro offsets hnd hlen
  match offsets, hlen with
  | [a, b, c, d], _ =>
    have hab : ¬ a = b := by intro e; subst e; simp at hnd
    have hac : ¬ a = c := by intro e; subst e; simp at hnd
    have hbc : ¬ b = c := by intro e; subst e; simp at hnd
    constructor
    · intro o ho
      have hoc : o = c := by simpa using ho.symm
      have hidx : pyIndex [a, b, c, d] c = some 2 := by
        rw [pyIndex_four, if_neg hac, if_neg hbc, if_pos rfl]
      rw [hoc]
      simp [button_handle_event, hidx, BUTTONS, LABELS]
    · intro o ho
      have hob : o = b := by simpa using ho.symm
      have hidx : pyIndex [a, b, c, d] b = some 1 := by
        rw [pyIndex_four, if_neg hab, if_pos rfl]
      rw [hob]
      simp [button_handle_event, hidx, BUTTONS, LABELS]

/-- Claim C8, witness: with the GPIO pins themselves as offsets, pressing
the line at index 2 logs label C without refreshing, and pressing the line
at index 1 (label B) refreshes once. -/
theorem C8_witness :
    button_handle_event [5, 6, 16, 24] 16 = .ok ("C", 0) ∧
    button_handle_event [5, 6, 16, 24] 6 = .ok ("B", 1) :=
  ⟨(C8_button_labels [5, 6, 16, 24] (by decide) rfl).1 16 rfl,
    (C8_button_labels [5, 6, 16, 24] (by decide) rfl).2 6 rfl⟩

/-- Claim C10: the offset-to-label mapping is partial — an event on any of
the four configured offsets resolves to the label at its index (refreshing
exactly on `"B"`), while an event on any other offset makes the index
lookup raise an uncaught `ValueError`, which aborts the listener loop. -/
theorem C10_offset_lookup_domain :
    ∀ offsets : List Nat, offsets.Nodup → offsets.length = 4 →
      (∀ (i : Nat) (o : Nat), offsets[i]? = some o →
        ∃ label, LABELS[i]? = some label ∧
          button_handle_event offsets o = .ok (label, if label == "B" then 1 else 0)) ∧
      (∀ o, o ∉ offsets → button_handle_event offsets o = .error .valueError) ∧
      (∀ o rest, o ∉ offsets →
        button_listener_step offsets (o :: rest) = .error .valueError) := by
  intro offsets hnd hlen
  have habsent : ∀ o, o ∉ offsets → button_handle_event offsets o = .error .valueError := by
    intro o h
    simp [button_handle_event, pyIndex_eq_none_of_not_mem h]
  refine ⟨?_, habsent, ?_⟩
  · match offsets, hlen with
    | [a, b, c, d], _ =>
      have hab : ¬ a = b := by intro e; subst e; simp at hnd
      have hac : ¬ a = c := by intro e; subst e; simp at hnd
      have had : ¬ a = d := by intro e; subst e; simp at hnd
      have hbc : ¬ b = c := by intro e; subst e; simp at hnd
      have hbd : ¬ b = d := by intro e; subst e; simp at hnd
      have hcd : ¬ c = d := by intro e; subst e; simp at hnd
      intro i o ho
      match i with
      | 0 =>
        have hoa : o = a := by simpa using ho.symm
        have hidx : pyIndex [a, b, c, d] a = some 0 := by
          rw [pyIndex_four, if_pos rfl]
        exact ⟨"A", rfl, by
          rw [hoa]; simp [button_handle_event, hidx, BUTTONS, LABELS]⟩
      | 1 =>
        have hob : o = b := by simpa using ho.symm
        have hidx : pyIndex [a, b, c, d] b = some 1 := by
          rw [pyIndex_four, if_neg hab, if_pos rfl]
        exact ⟨"B", rfl, by
          rw [hob]; simp [button_handle_event, hidx, BUTTONS, LABELS]⟩
      | 2 =>
        have hoc : o = c := by simpa using ho.symm
        have hidx : pyIndex [a, b, c, d] c = some 2 := by
          rw [pyIndex_four, if_neg hac, if_neg hbc, if_pos rfl]
        exact ⟨"C", rfl, by
          rw [hoc]; simp [button_handle_event, hidx, BUTTONS, LABELS]⟩
      | 3 =>
        have hod : o = d := by simpa using ho.symm
        have hidx : pyIndex [a, b, c, d] d = some 3 := by
          rw [pyIndex_four, if_neg had, if_neg hbd, if_neg hcd, if_pos rfl]
        exact ⟨"D", rfl, by
          rw [hod]; simp [button_handle_event, hidx, BUTTONS, LABELS]⟩
      | n + 4 => simp at ho
  · intro o rest h
    simp [button_listener_step, habsent o h]

/-- Claim C10, witness: offset 16 (index 2) resolves to label C; offset 99
is unconfigured, so handling it — and a listener pass starting with it —
raises `ValueError`. -/
theorem C10_witness :
    (∃ label, LABELS[2]? = some label ∧
      button_handle_event [5, 6, 16, 24] 16 =
        .ok (label, if label == "B" then 1 else 0)) ∧
    button_handle_event [5, 6, 16, 24] 99 = .error .valueError ∧
    button_listener_step [5, 6, 16, 24] [99] = .error .valueError :=
  ⟨(C10_offset_lookup_domain [5, 6, 16, 24] (by decide) rfl).1 2 16 rfl,
    (C10_offset_lookup_domain [5, 6, 16, 24] (by decide) rfl).2.1 99 (by decide),
    (C10_offset_lookup_domain [5, 6, 16, 24] (by decide) rfl).2.2 99 [] (by decide)⟩

/-- Claim C9, counterexample: with `20250101_120000.png` already cached, a
successful download at 2025-01-01 12:00:00 writes to that very name —
the existing record's mtime changes from 100 to 200 and no new file
appears, so `download` does overwrite an existing cache record when
second-resolution timestamps collide. -/
theorem C9_counterexample :
    download_image (.str "http://x") .ok ⟨2025, 1, 1, 12, 0, 0⟩ 200 fsClash =
      (some "images/20250101_120000.png", [("20250101_120000.png", 200)]) ∧
    fsClash = [("20250101_120000.png", 100)] ∧
    [("20250101_120000.png", 200)] ≠ [("20250101_120000.png", 100)] :=
  ⟨rfl, rfl, by decide⟩

/-- Claim C9, amended: no operation deletes or renames a cache record —
the set of cache filenames only grows across `download_image` and across
any successful `refresh_image` — but `download` writes to its
timestamp-derived filename even when a record of that name exists, in
which case that record is overwritten rather than a new file created. -/
theorem C9_cache_append_only :
    (∀ (url : JsonVal) (dl : DlOutcome) (now : DateTime) (nowM : Nat)
      (fs : FileSys) (n : String), n ∈ fs.map Prod.fst →
      n ∈ ((download_image url dl now nowM fs).2.map Prod.fst)) ∧
    (∀ (env : RefreshEnv) (fs : FileSys) (r : RefreshResult),
      refresh_image env fs = .ok r →
      ∀ n ∈ fs.map Prod.fst, n ∈ r.fs'.map Prod.fst) := by
  constructor
  · intro url dl now nowM fs n h
    exact download_names_mono h
  · intro env fs r hr n hn
    cases hfe : fetch_image_url env.http with
    | error e =>
      unfold refresh_image at hr
      rw [hfe] at hr
      exact absurd hr (by simp)
    | ok p =>
      rcases p with ⟨url, w1⟩
      by_cases hu : truthy url = true
      · by_cases hdl : env.dl = .ok
        · obtain ⟨calls, w3, _, hr2⟩ := refresh_image_download_ok fs hfe hu hdl
          have he := Except.ok.inj (hr.symm.trans hr2)
          rw [he]
          exact writeFile_names_mono hn
        · obtain ⟨calls, w3, hr2⟩ := refresh_image_download_fail fs hfe hu hdl
          have he := Except.ok.inj (hr.symm.trans hr2)
          rw [he]
          exact hn
      · obtain ⟨calls, w3, _, hr2⟩ :=
          refresh_image_fallback fs hfe (Bool.not_eq_true _ ▸ hu)
        have he := Except.ok.inj (hr.symm.trans hr2)
        rw [he]
        exact hn

/-- Claim C9, witness: a cached name survives a colliding download, and a
concrete failed-fetch refresh keeps every cached name. -/
theorem C9_witness :
    "20250101_120000.png" ∈
      ((download_image (.str "http://x") .ok ⟨2025, 1, 1, 12, 0, 0⟩ 200
        fsClash).2.map Prod.fst) ∧
    "20250101_120000.png" ∈
      (RefreshResult.mk fsClash (some "images/20250101_120000.png")
        [.setImageWithSat, .setBorder, .showPanel] 1).fs'.map Prod.fst :=
  ⟨C9_cache_append_only.1 (.str "http://x") .ok ⟨2025, 1, 1, 12, 0, 0⟩ 200
      fsClash "20250101_120000.png" (by decide),
    C9_cache_append_only.2 envDown fsClash
      (RefreshResult.mk fsClash (some "images/20250101_120000.png")
        [.setImageWithSat, .setBorder, .showPanel] 1) rfl
      "20250101_120000.png" (by decide)⟩

end MusesPi
